import Mathlib

/-!
Verification of the S2A half-connection record-protection core
(`security/s2a/internal/crypter/halfconn.go` and the buffer utility
`SliceForAppend` from the same package).

Shallow embedding conventions:
* Go byte slices are `List Nat` with every element below 256 where it matters;
  the Go `byte(x)` cast is `x % 256`.
* The Go error values produced with `fmt.Errorf` are abstracted into the small
  error taxonomy of the package (configuration, derivation, sequence-overflow,
  AEAD failures); computations that can fail return `Except CrypterErr α`.
* The `hkdfExpander` and `s2aAeadCrypter` interfaces of the package (whose
  concrete implementations live in sibling files) are modelled as explicit
  function parameters, exactly as they are dynamically dispatched fields in Go;
  the mutable key held inside the AEAD crypter is modelled as the `aeadKey`
  field of the half-connection state.
* The mutex is dropped: the embedding is sequential, each exported operation is
  a function from the pre-state to the post-state paired with its result.
-/

namespace S2A

/-- Go byte slices, as lists of naturals (each byte is a value below 256). -/
abbrev Bytes := List Nat

/-- Error taxonomy of the crypter package. -/
inductive CrypterErr where
  | configurationError
  | derivationError
  | sequenceOverflowError
  | authenticationFailure
  | aeadFailure
  deriving DecidableEq, Repr

/-- uint64Size is the size of a uint64 in bytes (halfconn.go). -/
def uint64Size : Nat := 8

/-- NonceSize is the size of the nonce in bytes for all supported ciphersuites
(common.go; halfconn.go refers to it as the package constant used in
`maskedNonce`). -/
def nonceSize : Nat := 12

/-- GcmTagSize, the AEAD tag size in bytes (common.go). -/
def gcmTagSize : Nat := 16

/-- Derivation label `tls13Key` (halfconn.go). -/
def tls13Key : String := "tls13 key"

/-- Derivation label `tls13Nonce` (halfconn.go). -/
def tls13Nonce : String := "tls13 iv"

/-- Derivation label `tls13Update` (halfconn.go). -/
def tls13Update : String := "tls13 traffic upd"

/-- The Go conversion `[]byte(label)` on the ASCII label strings. -/
def labelBytes (s : String) : Bytes := s.data.map Char.toNat

/-- Modelled from the spec: the closed set of supported ciphersuites
(the ciphersuite mapping lives in a sibling file not under src/). -/
inductive Ciphersuite where
  | aes128gcmSHA256
  | aes256gcmSHA384
  | chachapolySHA256
  deriving DecidableEq, Repr

/-- Modelled from the spec: key size per ciphersuite. -/
def Ciphersuite.keySize : Ciphersuite → Nat
  | .aes128gcmSHA256 => 16
  | .aes256gcmSHA384 => 32
  | .chachapolySHA256 => 32

/-- Modelled from the spec: nonce size is 12 bytes for every supported suite. -/
def Ciphersuite.nonceSize : Ciphersuite → Nat := fun _ => 12

/-- Modelled from the spec: traffic-secret size equals the hash digest size. -/
def Ciphersuite.trafficSecretSize : Ciphersuite → Nat
  | .aes128gcmSHA256 => 32
  | .aes256gcmSHA384 => 48
  | .chachapolySHA256 => 32

/-- Modelled from the spec: the 64-bit sequence counter with overflow
detection and reset (counter implementation is in a sibling file not under
src/); `invalid` records that the counter has been driven past its maximum. -/
structure Counter where
  val : Nat
  invalid : Bool
  deriving DecidableEq, Repr

/-- Modelled from the spec: a fresh counter starts at 0. -/
def newCounter : Counter := { val := 0, invalid := false }

/-- Modelled from the spec: `value()` returns the current value and fails once
the counter has overflowed. -/
def Counter.value (c : Counter) : Except CrypterErr Nat :=
  if c.invalid then .error .sequenceOverflowError else .ok c.val

/-- Modelled from the spec: `increment()` advances by one, marking overflow
when the 64-bit value wraps; it is a no-op on an already-overflowed counter. -/
def Counter.increment (c : Counter) : Counter :=
  if c.invalid then c
  else if c.val + 1 = 2 ^ 64 then { val := 0, invalid := true }
  else { val := c.val + 1, invalid := false }

/-- Modelled from the spec: `reset()` sets the counter back to 0. -/
def Counter.reset (_ : Counter) : Counter := newCounter

/-- An HKDF expander (the `hkdfExpander` interface of the package): given the
secret, the info structure and the output length, produce the derived bytes.
The hash constructor argument of the Go interface is fixed per half connection
and folded into the function. -/
def Expander := Bytes → Bytes → Nat → Except CrypterErr Bytes

/-- An AEAD encrypt/decrypt capability (the `s2aAeadCrypter` interface):
given the installed key, `dst`, the input record, the nonce and the aad,
produce the output bytes or fail. -/
def AeadFn := Bytes → Bytes → Bytes → Bytes → Bytes → Except CrypterErr Bytes

/-- The S2AHalfConnection state (halfconn.go). The AEAD crypter field is
represented by the key currently installed in it (`aeadKey`); the hash
constructor is folded into `expander`; the mutex is dropped. -/
structure S2AHalfConnection where
  cs : Ciphersuite
  expander : Expander
  seqCounter : Counter
  trafficSecret : Bytes
  nonce : Bytes
  key : Bytes
  aeadKey : Bytes

/-- maskedNonce (halfconn.go): copy the static nonce and XOR its bytes at
indices `nonceSize - uint64Size + i` (i = 0..7) with `byte(sequence >> (56 - 8*i))`. -/
def maskedNonce (nonce : Bytes) (sequence : Nat) : Bytes :=
  (List.range uint64Size).foldl
    (fun acc i =>
      acc.set (nonceSize - uint64Size + i)
        ((acc.getD (nonceSize - uint64Size + i) 0) ^^^
          ((sequence >>> (56 - uint64Size * i)) % 256)))
    nonce

/-- The 64-bit value `s` rendered big-endian, as in the spec's wording of the
nonce-masking rule: eight bytes, most significant first. -/
def bigEndian64 (s : Nat) : Bytes :=
  [s / 2 ^ 56 % 256, s / 2 ^ 48 % 256, s / 2 ^ 40 % 256, s / 2 ^ 32 % 256,
   s / 2 ^ 24 % 256, s / 2 ^ 16 % 256, s / 2 ^ 8 % 256, s % 256]

/-- Big-endian byte composition, used to compare nonces as numbers. -/
def bytesToNat (bs : Bytes) : Nat := bs.foldl (fun acc b => acc * 256 + b) 0

/-- getAndIncrementSequence (halfconn.go): read the counter value; on error
return it with the counter untouched, otherwise increment and return the value
that was read. -/
def getAndIncrementSequence (c : Counter) : Counter × Except CrypterErr Nat :=
  match c.value with
  | .error e => (c, .error e)
  | .ok sequence => (c.increment, .ok sequence)

/-- Encrypt (halfconn.go): consume a sequence number (failing immediately on
overflow without touching anything else), compute the masked nonce, and
delegate to the AEAD crypter's encrypt with the installed key. -/
def Encrypt (enc : AeadFn) (hc : S2AHalfConnection) (dst plaintext aad : Bytes) :
    S2AHalfConnection × Except CrypterErr Bytes :=
  match getAndIncrementSequence hc.seqCounter with
  | (_, .error e) => (hc, .error e)
  | (c, .ok sequence) =>
    let hc := { hc with seqCounter := c }
    let nonce := maskedNonce hc.nonce sequence
    (hc, enc hc.aeadKey dst plaintext nonce aad)

/-- Decrypt (halfconn.go): symmetric to Encrypt, delegating to the AEAD
crypter's decrypt. -/
def Decrypt (dec : AeadFn) (hc : S2AHalfConnection) (dst ciphertext aad : Bytes) :
    S2AHalfConnection × Except CrypterErr Bytes :=
  match getAndIncrementSequence hc.seqCounter with
  | (_, .error e) => (hc, .error e)
  | (c, .ok sequence) =>
    let hc := { hc with seqCounter := c }
    let nonce := maskedNonce hc.nonce sequence
    (hc, dec hc.aeadKey dst ciphertext nonce aad)

/-- The state after i consecutive Encrypt calls on hc (each call keeps the
state component of `Encrypt` and discards the AEAD verdict), used to state
trace properties of consecutive calls. -/
def iterEncrypt (enc : AeadFn) (dst plaintext aad : Bytes) (hc : S2AHalfConnection) :
    Nat → S2AHalfConnection
  | 0 => hc
  | i + 1 => (Encrypt enc (iterEncrypt enc dst plaintext aad hc i) dst plaintext aad).1

/-- The HKDF-Expand-Label info structure built by deriveSecret (halfconn.go)
with the cryptobyte builder: 2-byte big-endian `uint16(length)`, the
1-byte-length-prefixed label, and a 1-byte-length-prefixed empty context.
The builder fails if the label does not fit a 1-byte length prefix. -/
def buildHkdfLabel (label : Bytes) (length : Nat) : Except CrypterErr Bytes :=
  if label.length > 255 then .error .derivationError
  else .ok ([length % 2 ^ 16 / 2 ^ 8, length % 2 ^ 8, label.length] ++ label ++ [0])

/-- deriveSecret (halfconn.go): build the HKDF-Expand-Label structure and hand
it to the expander together with the secret and the output length. -/
def deriveSecret (expander : Expander) (secret label : Bytes) (length : Nat) :
    Except CrypterErr Bytes :=
  match buildHkdfLabel label length with
  | .error e => .error e
  | .ok info => expander secret info length

/-- updateWithNewTrafficSecret (halfconn.go): derive the key from the new
traffic secret with label `tls13Key`, then the nonce with label `tls13Nonce`;
the key field is written before the nonce derivation runs, as in the source. -/
def updateWithNewTrafficSecret (hc : S2AHalfConnection) (newTrafficSecret : Bytes) :
    S2AHalfConnection × Except CrypterErr Unit :=
  match deriveSecret hc.expander newTrafficSecret (labelBytes tls13Key) hc.cs.keySize with
  | .error e => (hc, .error e)
  | .ok k =>
    match deriveSecret hc.expander newTrafficSecret (labelBytes tls13Nonce) hc.cs.nonceSize with
    | .error e => ({ hc with key := k }, .error e)
    | .ok n => ({ hc with key := k, nonce := n }, .ok ())

/-- The partially-initialized half connection built by `NewHalfConn` before any
derivation runs (halfconn.go line 39); key, nonce and AEAD key are still empty. -/
def initialHalfConn (cs : Ciphersuite) (expander : Expander) (trafficSecret : Bytes) :
    S2AHalfConnection :=
  { cs := cs, expander := expander, seqCounter := newCounter,
    trafficSecret := trafficSecret, nonce := [], key := [], aeadKey := [] }

/-- NewHalfConn (halfconn.go): check the traffic-secret length against the
ciphersuite, derive key and nonce, then build the AEAD crypter from the key.
`aeadCtor` abstracts `cs.aeadCrypter`, returning the key the crypter installs. -/
def NewHalfConn (cs : Ciphersuite) (trafficSecret : Bytes) (expander : Expander)
    (aeadCtor : Bytes → Except CrypterErr Bytes) : Except CrypterErr S2AHalfConnection :=
  if cs.trafficSecretSize ≠ trafficSecret.length then .error .configurationError
  else
    match updateWithNewTrafficSecret (initialHalfConn cs expander trafficSecret) trafficSecret with
    | (_, .error e) => .error e
    | (hc, .ok _) =>
      match aeadCtor hc.key with
      | .error e => .error e
      | .ok ak => .ok { hc with aeadKey := ak }

/-- Modelled from the spec: `cs.aeadCrypter(key)` (sibling file not under
src/) fails unless the key has the ciphersuite's key size, and otherwise
installs exactly the given key. -/
def defaultAeadCtor (cs : Ciphersuite) (key : Bytes) : Except CrypterErr Bytes :=
  if key.length = cs.keySize then .ok key else .error .configurationError

/-- Modelled from the spec: the AEAD crypter's `updateKey(newKey)` (sibling
file not under src/) replaces the installed key, failing on a size mismatch.
First argument is the previously installed key. -/
def aeadUpdateKey (cs : Ciphersuite) (_oldKey newKey : Bytes) : Except CrypterErr Bytes :=
  if newKey.length = cs.keySize then .ok newKey else .error .configurationError

/-- UpdateKey (halfconn.go): derive the next traffic secret with label
`tls13Update` (the field is overwritten by the assignment even when the
derivation fails, as in the source), re-derive key and nonce from it, install
the new key in the AEAD crypter via `updKey`, and reset the sequence counter. -/
def UpdateKey (updKey : Bytes → Bytes → Except CrypterErr Bytes)
    (hc : S2AHalfConnection) : S2AHalfConnection × Except CrypterErr Unit :=
  match deriveSecret hc.expander hc.trafficSecret (labelBytes tls13Update) hc.cs.trafficSecretSize with
  | .error e => ({ hc with trafficSecret := [] }, .error e)
  | .ok newSecret =>
    match updateWithNewTrafficSecret { hc with trafficSecret := newSecret } newSecret with
    | (hc', .error e) => (hc', .error e)
    | (hc', .ok _) =>
      match updKey hc'.aeadKey hc'.key with
      | .error e => (hc', .error e)
      | .ok ak => ({ hc' with aeadKey := ak, seqCounter := hc'.seqCounter.reset }, .ok ())

/-- A Go byte slice with its backing array: `buf` is the array from the
slice's offset to the end of its capacity, `len` the slice length; the
capacity is `buf.length`. -/
structure GoSlice where
  buf : Bytes
  len : Nat
  deriving DecidableEq, Repr

/-- The bytes a Go slice denotes. -/
def GoSlice.data (s : GoSlice) : Bytes := s.buf.take s.len

/-- The capacity of a Go slice. -/
def GoSlice.cap (s : GoSlice) : Nat := s.buf.length

/-- SliceForAppend (common.go): if the capacity covers `len + n`, re-slice in
place; otherwise allocate a fresh array of exactly `len + n` zero bytes and
copy the old contents in. The tail is the view `head[len(in):]`. -/
def SliceForAppend (inS : GoSlice) (n : Nat) : GoSlice × GoSlice :=
  let total := inS.len + n
  let head : GoSlice :=
    if inS.cap ≥ total then { buf := inS.buf, len := total }
    else { buf := inS.data ++ List.replicate n 0, len := total }
  let tail : GoSlice := { buf := head.buf.drop inS.len, len := n }
  (head, tail)

/-! ### Sample objects used by concrete witnesses -/

/-- A trivial AEAD function that ignores its inputs. -/
def okEnc : AeadFn := fun _ _ _ _ _ => .ok []

/-- An AEAD function that returns the nonce it was handed, making the
per-record nonce observable in the result of `Encrypt`. -/
def nonceEcho : AeadFn := fun _ _ _ nonce _ => .ok nonce

/-- An expander returning all-zero output of the requested length. -/
def zeroExpander : Expander := fun _ _ len => .ok (List.replicate len 0)

/-- An expander that always fails with a derivation error. -/
def failExpander : Expander := fun _ _ _ => .error .derivationError

/-- A sample AES-128-GCM half connection with the given counter. -/
def sampleHC (c : Counter) : S2AHalfConnection :=
  { cs := .aes128gcmSHA256, expander := zeroExpander, seqCounter := c,
    trafficSecret := List.replicate 32 0, nonce := List.replicate 12 0,
    key := List.replicate 16 0, aeadKey := List.replicate 16 0 }

/-- A sample half connection whose static nonce ends in a 1 byte. -/
def sampleHCNonceOne : S2AHalfConnection :=
  { sampleHC newCounter with nonce := List.replicate 11 0 ++ [1] }

/-- The half connection produced by `NewHalfConn` from the all-zero 32-byte
secret with `zeroExpander` on AES-128-GCM. -/
def sampleConstructedHC : S2AHalfConnection :=
  { cs := .aes128gcmSHA256, expander := zeroExpander, seqCounter := newCounter,
    trafficSecret := List.replicate 32 0, nonce := List.replicate 12 0,
    key := List.replicate 16 0, aeadKey := List.replicate 16 0 }

/-! ### Helper lemmas -/

/-- The masking loop of `maskedNonce` on a 12-byte nonce, written as
take/zip-with-XOR against the big-endian sequence bytes. -/
theorem maskedNonce_eq_take_zip (n : Bytes) (h : n.length = 12) (s : Nat) :
    maskedNonce n s =
      n.take 4 ++ List.zipWith (fun a b => a ^^^ b) (n.drop 4) (bigEndian64 s) := by
  rcases n with _ | ⟨b0, _ | ⟨b1, _ | ⟨b2, _ | ⟨b3, _ | ⟨b4, _ | ⟨b5, _ | ⟨b6, _ | ⟨b7,
    _ | ⟨b8, _ | ⟨b9, _ | ⟨b10, _ | ⟨b11, t⟩⟩⟩⟩⟩⟩⟩⟩⟩⟩⟩⟩ <;>
    simp_all [maskedNonce, uint64Size, nonceSize, bigEndian64,
      Nat.shiftRight_eq_div_pow, List.range_succ]

/-- Masking a 12-byte static nonce with two distinct 64-bit sequence numbers
gives two distinct per-record nonces. -/
theorem maskedNonce_injOn (n : Bytes) (h : n.length = 12) (s t : Nat)
    (hs : s < 2 ^ 64) (ht : t < 2 ^ 64) (hne : s ≠ t) :
    maskedNonce n s ≠ maskedNonce n t := by
  intro heq
  rw [maskedNonce_eq_take_zip n h s, maskedNonce_eq_take_zip n h t] at heq
  have h2 := List.append_cancel_left heq
  rcases n with _ | ⟨b0, _ | ⟨b1, _ | ⟨b2, _ | ⟨b3, _ | ⟨b4, _ | ⟨b5, _ | ⟨b6, _ | ⟨b7,
    _ | ⟨b8, _ | ⟨b9, _ | ⟨b10, _ | ⟨b11, u⟩⟩⟩⟩⟩⟩⟩⟩⟩⟩⟩⟩ <;>
    simp_all [bigEndian64, Nat.xor_right_inj] <;> omega

/-- After i consecutive Encrypt calls on a half connection with a fresh
counter (i below 2^64), the counter reads exactly i and is not overflowed,
and the static nonce and installed AEAD key are unchanged. -/
theorem iterEncrypt_state (enc : AeadFn) (dst plaintext aad : Bytes)
    (hc : S2AHalfConnection) (h0 : hc.seqCounter = newCounter) :
    ∀ i, i < 2 ^ 64 →
      (iterEncrypt enc dst plaintext aad hc i).seqCounter = { val := i, invalid := false } ∧
      (iterEncrypt enc dst plaintext aad hc i).nonce = hc.nonce ∧
      (iterEncrypt enc dst plaintext aad hc i).aeadKey = hc.aeadKey := by
  intro i
  induction i with
  | zero => intro _; exact ⟨h0.trans rfl, rfl, rfl⟩
  | succ i ih =>
    intro hlt
    obtain ⟨hc1, hn1, ha1⟩ := ih (by omega)
    have hne : ¬ (i + 1 = 2 ^ 64) := by omega
    unfold iterEncrypt Encrypt getAndIncrementSequence
    simp [Counter.value, Counter.increment, hc1, hn1, ha1, hne]
    omega

/-- The i-th Encrypt call of a run that started at a fresh counter hands the
AEAD function the installed key and the static nonce masked with i. -/
theorem iterEncrypt_step (enc : AeadFn) (dst plaintext aad : Bytes)
    (hc : S2AHalfConnection) (h0 : hc.seqCounter = newCounter)
    (i : Nat) (hlt : i < 2 ^ 64) :
    (Encrypt enc (iterEncrypt enc dst plaintext aad hc i) dst plaintext aad).2 =
      enc hc.aeadKey dst plaintext (maskedNonce hc.nonce i) aad := by
  obtain ⟨hc1, hn1, ha1⟩ := iterEncrypt_state enc dst plaintext aad hc h0 i hlt
  unfold Encrypt getAndIncrementSequence
  simp [Counter.value, hc1, hn1, ha1]

/-- Unfolding a successful `updateWithNewTrafficSecret`: the key and nonce of
the post-state are the two derivations from the new traffic secret, and every
other field is untouched. -/
theorem updateWithNewTrafficSecret_ok (hc : S2AHalfConnection) (nts : Bytes)
    (hc' : S2AHalfConnection) (h : updateWithNewTrafficSecret hc nts = (hc', .ok ())) :
    deriveSecret hc.expander nts (labelBytes tls13Key) hc.cs.keySize = .ok hc'.key ∧
    deriveSecret hc.expander nts (labelBytes tls13Nonce) hc.cs.nonceSize = .ok hc'.nonce ∧
    hc'.trafficSecret = hc.trafficSecret ∧ hc'.cs = hc.cs ∧ hc'.expander = hc.expander ∧
    hc'.seqCounter = hc.seqCounter ∧ hc'.aeadKey = hc.aeadKey := by
  revert h
  unfold updateWithNewTrafficSecret
  split
  · intro h; simp at h
  · split
    · intro h; simp at h
    · intro h
      rw [Prod.ext_iff] at h
      obtain ⟨h1, -⟩ := h
      subst h1
      simp_all

/-- Unfolding a successful `NewHalfConn`: the produced half connection has the
given secret, a fresh counter, the two derivations as key and nonce, and the
AEAD key produced by the crypter constructor from the derived key. -/
theorem NewHalfConn_ok (cs : Ciphersuite) (secret : Bytes) (expander : Expander)
    (aeadCtor : Bytes → Except CrypterErr Bytes) (hc : S2AHalfConnection)
    (h : NewHalfConn cs secret expander aeadCtor = .ok hc) :
    deriveSecret expander secret (labelBytes tls13Key) cs.keySize = .ok hc.key ∧
    deriveSecret expander secret (labelBytes tls13Nonce) cs.nonceSize = .ok hc.nonce ∧
    hc.trafficSecret = secret ∧ hc.seqCounter = newCounter ∧ hc.cs = cs ∧
    hc.expander = expander ∧ aeadCtor hc.key = .ok hc.aeadKey := by
  revert h
  unfold NewHalfConn
  split
  · intro h; simp at h
  · split
    · intro h; simp at h
    · rename_i hc0 a hU
      split
      · intro h; simp at h
      · rename_i ak hA
        intro h
        rw [Except.ok.injEq] at h
        subst h
        obtain ⟨hK, hN, hT, hCs, hE, hSq, hAk⟩ := updateWithNewTrafficSecret_ok _ _ _ hU
        simp_all [initialHalfConn]

/-! ### Claim theorems -/

/-- C1: for every sequence number `s` and every 12-byte static nonce, the
per-record nonce equals the static nonce with its last 8 bytes XORed against
the 64-bit value `s` rendered big-endian, and the leading 4 bytes unchanged. -/
theorem c1_nonce_masking (n : Bytes) (h : n.length = 12) (s : Nat) (hs : s < 2 ^ 64) :
    maskedNonce n s =
      n.take 4 ++ List.zipWith (fun a b => a ^^^ b) (n.drop 4) (bigEndian64 s) :=
  maskedNonce_eq_take_zip n h s

/-- Witness for C1 at the nonce 1..12 and sequence number 3. -/
theorem c1_nonce_masking_witness :
    maskedNonce [1, 2, 3, 4, 5, 6, 7, 8, 9, 10, 11, 12] 3 =
      [1, 2, 3, 4, 5, 6, 7, 8, 9, 10, 11, 12].take 4 ++
        List.zipWith (fun a b => a ^^^ b)
          ([1, 2, 3, 4, 5, 6, 7, 8, 9, 10, 11, 12].drop 4) (bigEndian64 3) :=
  c1_nonce_masking [1, 2, 3, 4, 5, 6, 7, 8, 9, 10, 11, 12] (by decide) 3 (by norm_num)

/-- C9: Encrypt and Decrypt leave the traffic secret, derived key, static
nonce, installed AEAD key, ciphersuite and expander unchanged; only the
sequence counter may change, and the stored static nonce bytes are never
modified by the nonce masking. -/
theorem c9_encrypt_decrypt_frame (enc dec : AeadFn) (hc : S2AHalfConnection)
    (dst input aad : Bytes) :
    ((Encrypt enc hc dst input aad).1.trafficSecret = hc.trafficSecret ∧
      (Encrypt enc hc dst input aad).1.key = hc.key ∧
      (Encrypt enc hc dst input aad).1.nonce = hc.nonce ∧
      (Encrypt enc hc dst input aad).1.aeadKey = hc.aeadKey ∧
      (Encrypt enc hc dst input aad).1.cs = hc.cs ∧
      (Encrypt enc hc dst input aad).1.expander = hc.expander) ∧
    ((Decrypt dec hc dst input aad).1.trafficSecret = hc.trafficSecret ∧
      (Decrypt dec hc dst input aad).1.key = hc.key ∧
      (Decrypt dec hc dst input aad).1.nonce = hc.nonce ∧
      (Decrypt dec hc dst input aad).1.aeadKey = hc.aeadKey ∧
      (Decrypt dec hc dst input aad).1.cs = hc.cs ∧
      (Decrypt dec hc dst input aad).1.expander = hc.expander) := by
  unfold Encrypt Decrypt getAndIncrementSequence Counter.value
  by_cases h : hc.seqCounter.invalid <;> simp [h]

/-- C10: the masked nonce for sequence number 0 is the static nonce itself,
and the sequence counter reads 0 both at construction (`newCounter`) and
after a reset, so the first record of each key epoch uses the unmasked
static nonce. -/
theorem c10_sequence_zero_identity :
    (∀ (n : Bytes), n.length = 12 → maskedNonce n 0 = n) ∧
    newCounter.value = .ok 0 ∧
    (∀ c : Counter, (Counter.reset c).value = .ok 0) := by
  refine ⟨fun n h => ?_, rfl, fun c => rfl⟩
  rw [maskedNonce_eq_take_zip n h 0]
  rcases n with _ | ⟨b0, _ | ⟨b1, _ | ⟨b2, _ | ⟨b3, _ | ⟨b4, _ | ⟨b5, _ | ⟨b6, _ | ⟨b7,
    _ | ⟨b8, _ | ⟨b9, _ | ⟨b10, _ | ⟨b11, t⟩⟩⟩⟩⟩⟩⟩⟩⟩⟩⟩⟩ <;> simp_all [bigEndian64]

/-- Witness for C10 at the nonce 1..12. -/
theorem c10_sequence_zero_identity_witness :
    maskedNonce [1, 2, 3, 4, 5, 6, 7, 8, 9, 10, 11, 12] 0 =
      [1, 2, 3, 4, 5, 6, 7, 8, 9, 10, 11, 12] :=
  c10_sequence_zero_identity.1 [1, 2, 3, 4, 5, 6, 7, 8, 9, 10, 11, 12] (by decide)

/-- C2: if the sequence counter has overflowed, Encrypt and Decrypt fail with
the sequence-overflow error and return the state untouched, for every AEAD
function (so the AEAD crypter is never consulted); otherwise the counter in
the post-state is the incremented counter, for every AEAD function (so the
advance survives an AEAD-layer failure). -/
theorem c2_sequence_consumption (enc dec : AeadFn) (hc : S2AHalfConnection)
    (dst plaintext ciphertext aad : Bytes) :
    (hc.seqCounter.invalid = true →
      Encrypt enc hc dst plaintext aad = (hc, .error .sequenceOverflowError) ∧
      Decrypt dec hc dst ciphertext aad = (hc, .error .sequenceOverflowError)) ∧
    (hc.seqCounter.invalid = false →
      (Encrypt enc hc dst plaintext aad).1.seqCounter = hc.seqCounter.increment ∧
      (Decrypt dec hc dst ciphertext aad).1.seqCounter = hc.seqCounter.increment) := by
  unfold Encrypt Decrypt getAndIncrementSequence Counter.value
  constructor <;> intro h <;> simp [h]

/-- Witness for C2: an overflowed counter makes Encrypt fail without touching
the state, and a fresh counter is advanced by one even though `failEnc` (an
always-failing AEAD stand-in) rejects the record. -/
theorem c2_sequence_consumption_witness :
    (Encrypt okEnc (sampleHC { val := 5, invalid := true }) [] [] [] =
      (sampleHC { val := 5, invalid := true }, .error .sequenceOverflowError)) ∧
    ((Encrypt (fun _ _ _ _ _ => .error .aeadFailure) (sampleHC newCounter) [] [] []).1.seqCounter =
      newCounter.increment) :=
  ⟨((c2_sequence_consumption okEnc okEnc (sampleHC { val := 5, invalid := true })
      [] [] [] []).1 rfl).1,
    ((c2_sequence_consumption (fun _ _ _ _ _ => .error .aeadFailure) okEnc
      (sampleHC newCounter) [] [] [] []).2 rfl).1⟩

/-- Counterexample to C3 as stated, on both counts the code falsifies. First,
the masked nonces are not strictly increasing: on a half connection whose
12-byte static nonce ends in the byte 1, the first two Encrypt calls consume
sequence numbers 0 and 1 but produce masked nonces 0x…01 then 0x…00, so the
second masked nonce is numerically and lexicographically smaller than the
first. Second, the key after UpdateKey need not differ from every prior key:
a half connection built by `NewHalfConn` with a constant-output expander
completes UpdateKey successfully and ends up with exactly the key it had
before — nothing in the code compares the new key against prior ones, so key
freshness holds only as a property of the expander, not of this code. -/
theorem c3_counterexample :
    (Encrypt nonceEcho sampleHCNonceOne [] [] []).2 =
      .ok [0, 0, 0, 0, 0, 0, 0, 0, 0, 0, 0, 1] ∧
    (Encrypt nonceEcho (Encrypt nonceEcho sampleHCNonceOne [] [] []).1 [] [] []).2 =
      .ok [0, 0, 0, 0, 0, 0, 0, 0, 0, 0, 0, 0] ∧
    bytesToNat [0, 0, 0, 0, 0, 0, 0, 0, 0, 0, 0, 0] <
      bytesToNat [0, 0, 0, 0, 0, 0, 0, 0, 0, 0, 0, 1] ∧
    NewHalfConn .aes128gcmSHA256 (List.replicate 32 0) zeroExpander
      (defaultAeadCtor .aes128gcmSHA256) = .ok sampleConstructedHC ∧
    (UpdateKey (aeadUpdateKey .aes128gcmSHA256) sampleConstructedHC).2 = .ok () ∧
    (UpdateKey (aeadUpdateKey .aes128gcmSHA256) sampleConstructedHC).1.key =
      sampleConstructedHC.key := by
  exact ⟨rfl, rfl, by decide, rfl, rfl, rfl⟩

/-- C3 (amended): for every N up to 2^64, N consecutive Encrypt calls on a
half connection with a fresh counter consume sequence numbers 0, 1, …, N-1 in
order — the i-th call hands the AEAD function the static nonce masked with i —
and the N masked nonces so produced are pairwise distinct (distinct, not
strictly increasing); a successful UpdateKey resets the counter to 0. Key
freshness across UpdateKey is not guaranteed by the code (see the
counterexample), so (key, nonce) pairs never repeat exactly when the derived
keys of different epochs do differ. -/
theorem c3_nonce_uniqueness (enc : AeadFn) (dst plaintext aad : Bytes)
    (hc : S2AHalfConnection) (h0 : hc.seqCounter = newCounter)
    (h12 : hc.nonce.length = 12) (N : Nat) (hN : N ≤ 2 ^ 64) :
    (∀ i, i < N →
      (iterEncrypt enc dst plaintext aad hc i).seqCounter = { val := i, invalid := false } ∧
      (Encrypt enc (iterEncrypt enc dst plaintext aad hc i) dst plaintext aad).2 =
        enc hc.aeadKey dst plaintext (maskedNonce hc.nonce i) aad) ∧
    (∀ i j, i < N → j < N → i ≠ j →
      maskedNonce hc.nonce i ≠ maskedNonce hc.nonce j) ∧
    (∀ (updKey : Bytes → Bytes → Except CrypterErr Bytes) (hc2 : S2AHalfConnection),
      (UpdateKey updKey hc2).2 = .ok () → (UpdateKey updKey hc2).1.seqCounter = newCounter) := by
  refine ⟨fun i hi => ?_, fun i j hi hj hne => ?_, fun updKey hc2 h => ?_⟩
  · exact ⟨(iterEncrypt_state enc dst plaintext aad hc h0 i (by omega)).1,
      iterEncrypt_step enc dst plaintext aad hc h0 i (by omega)⟩
  · exact maskedNonce_injOn hc.nonce h12 i j (by omega) (by omega) hne
  · revert h
    unfold UpdateKey
    split
    · intro h; simp at h
    · split
      · intro h; simp at h
      · split
        · intro h; simp at h
        · intro _; rfl

/-- Witness for C3 (amended) at N = 2 on the sample AES-128 half connection:
the second of two consecutive Encrypt calls runs at counter value 1 and hands
the AEAD function the nonce masked with 1, the two masked nonces differ, and
a concrete successful UpdateKey resets the counter to 0. -/
theorem c3_nonce_uniqueness_witness :
    ((iterEncrypt okEnc [] [] [] (sampleHC newCounter) 1).seqCounter =
        { val := 1, invalid := false } ∧
      (Encrypt okEnc (iterEncrypt okEnc [] [] [] (sampleHC newCounter) 1) [] [] []).2 =
        okEnc (sampleHC newCounter).aeadKey [] []
          (maskedNonce (sampleHC newCounter).nonce 1) []) ∧
    maskedNonce (sampleHC newCounter).nonce 0 ≠ maskedNonce (sampleHC newCounter).nonce 1 ∧
    (UpdateKey (aeadUpdateKey .aes128gcmSHA256)
        (sampleHC { val := 7, invalid := false })).1.seqCounter = newCounter :=
  ⟨(c3_nonce_uniqueness okEnc [] [] [] (sampleHC newCounter) rfl (by decide) 2
      (by norm_num)).1 1 (by norm_num),
    (c3_nonce_uniqueness okEnc [] [] [] (sampleHC newCounter) rfl (by decide) 2
      (by norm_num)).2.1 0 1 (by norm_num) (by norm_num) (by decide),
    (c3_nonce_uniqueness okEnc [] [] [] (sampleHC newCounter) rfl (by decide) 2
      (by norm_num)).2.2 (aeadUpdateKey .aes128gcmSHA256)
      (sampleHC { val := 7, invalid := false }) rfl⟩

/-- C4: a successful UpdateKey (with the AEAD crypter's key-replacing
updateKey) derives the next traffic secret with label `tls13Update` and the
traffic-secret size, re-derives key and nonce from it with labels `tls13Key`
and `tls13Nonce` exactly as construction does, installs the new key in the
AEAD crypter, resets the sequence counter to 0, and replaces the stored
traffic secret with the new one. -/
theorem c4_update_key_behavior (hc : S2AHalfConnection)
    (h : (UpdateKey (aeadUpdateKey hc.cs) hc).2 = .ok ()) :
    ∃ newSecret,
      deriveSecret hc.expander hc.trafficSecret (labelBytes tls13Update) hc.cs.trafficSecretSize
        = .ok newSecret ∧
      (UpdateKey (aeadUpdateKey hc.cs) hc).1.trafficSecret = newSecret ∧
      deriveSecret hc.expander newSecret (labelBytes tls13Key) hc.cs.keySize =
        .ok (UpdateKey (aeadUpdateKey hc.cs) hc).1.key ∧
      deriveSecret hc.expander newSecret (labelBytes tls13Nonce) hc.cs.nonceSize =
        .ok (UpdateKey (aeadUpdateKey hc.cs) hc).1.nonce ∧
      (UpdateKey (aeadUpdateKey hc.cs) hc).1.aeadKey =
        (UpdateKey (aeadUpdateKey hc.cs) hc).1.key ∧
      (UpdateKey (aeadUpdateKey hc.cs) hc).1.seqCounter = newCounter := by
  revert h
  unfold UpdateKey
  split
  · intro h; simp at h
  · rename_i newSecret hD
    split
    · intro h; simp at h
    · rename_i hc' a hU
      obtain ⟨hK, hN, hT, hCs, hE, hSq, hAk⟩ := updateWithNewTrafficSecret_ok _ _ _ hU
      split
      · intro h; simp at h
      · rename_i ak hA
        intro _
        refine ⟨newSecret, hD, ?_⟩
        revert hA
        unfold aeadUpdateKey
        split
        · intro hA
          rw [Except.ok.injEq] at hA
          subst hA
          simp_all [Counter.reset]
        · intro hA; simp at hA

/-- Witness for C4: a concrete successful UpdateKey on the sample AES-128
half connection with the all-zero expander. -/
theorem c4_update_key_behavior_witness :
    ∃ newSecret,
      deriveSecret (sampleHC newCounter).expander (sampleHC newCounter).trafficSecret
          (labelBytes tls13Update) (sampleHC newCounter).cs.trafficSecretSize = .ok newSecret ∧
      (UpdateKey (aeadUpdateKey (sampleHC newCounter).cs) (sampleHC newCounter)).1.trafficSecret
        = newSecret ∧
      deriveSecret (sampleHC newCounter).expander newSecret (labelBytes tls13Key)
          (sampleHC newCounter).cs.keySize =
        .ok (UpdateKey (aeadUpdateKey (sampleHC newCounter).cs) (sampleHC newCounter)).1.key ∧
      deriveSecret (sampleHC newCounter).expander newSecret (labelBytes tls13Nonce)
          (sampleHC newCounter).cs.nonceSize =
        .ok (UpdateKey (aeadUpdateKey (sampleHC newCounter).cs) (sampleHC newCounter)).1.nonce ∧
      (UpdateKey (aeadUpdateKey (sampleHC newCounter).cs) (sampleHC newCounter)).1.aeadKey =
        (UpdateKey (aeadUpdateKey (sampleHC newCounter).cs) (sampleHC newCounter)).1.key ∧
      (UpdateKey (aeadUpdateKey (sampleHC newCounter).cs) (sampleHC newCounter)).1.seqCounter =
        newCounter :=
  c4_update_key_behavior (sampleHC newCounter) rfl

/-- C5: deriveSecret hands the expander the info structure made of the 2-byte
big-endian length, the 1-byte-length-prefixed label and a 1-byte-length-prefixed
empty context; the label constants are the ASCII bytes of "tls13 key" and
"tls13 iv"; and construction derives the key and nonce from the initial secret
with exactly those labels and the ciphersuite's key and nonce sizes. -/
theorem c5_hkdf_label_structure :
    (∀ (expander : Expander) (secret label : Bytes) (length : Nat),
      label.length ≤ 255 → length < 2 ^ 16 →
      deriveSecret expander secret label length =
        expander secret ([length / 2 ^ 8, length % 2 ^ 8, label.length] ++ label ++ [0]) length) ∧
    labelBytes tls13Key = [116, 108, 115, 49, 51, 32, 107, 101, 121] ∧
    labelBytes tls13Nonce = [116, 108, 115, 49, 51, 32, 105, 118] ∧
    (∀ cs secret (expander : Expander) aeadCtor hc,
      NewHalfConn cs secret expander aeadCtor = .ok hc →
      deriveSecret expander secret (labelBytes tls13Key) cs.keySize = .ok hc.key ∧
      deriveSecret expander secret (labelBytes tls13Nonce) cs.nonceSize = .ok hc.nonce) := by
  refine ⟨fun expander secret label length hlab hlen => ?_, by decide, by decide,
    fun cs secret expander aeadCtor hc h => ?_⟩
  · unfold deriveSecret buildHkdfLabel
    rw [if_neg (by omega), Nat.mod_eq_of_lt hlen]
  · obtain ⟨hK, hN, -⟩ := NewHalfConn_ok cs secret expander aeadCtor hc h
    exact ⟨hK, hN⟩

/-- Witness for C5: the info structure for label "tls13 key" and length 16,
and the key/nonce derivations of a concrete successful construction. -/
theorem c5_hkdf_label_structure_witness :
    deriveSecret zeroExpander (List.replicate 32 0) (labelBytes tls13Key) 16 =
      zeroExpander (List.replicate 32 0)
        ([16 / 2 ^ 8, 16 % 2 ^ 8, (labelBytes tls13Key).length] ++ labelBytes tls13Key ++ [0])
        16 ∧
    (deriveSecret zeroExpander (List.replicate 32 0) (labelBytes tls13Key)
        Ciphersuite.aes128gcmSHA256.keySize = .ok sampleConstructedHC.key ∧
      deriveSecret zeroExpander (List.replicate 32 0) (labelBytes tls13Nonce)
        Ciphersuite.aes128gcmSHA256.nonceSize = .ok sampleConstructedHC.nonce) :=
  ⟨c5_hkdf_label_structure.1 zeroExpander (List.replicate 32 0) (labelBytes tls13Key) 16
      (by decide) (by norm_num),
    c5_hkdf_label_structure.2.2.2 .aes128gcmSHA256 (List.replicate 32 0) zeroExpander
      (defaultAeadCtor .aes128gcmSHA256) sampleConstructedHC rfl⟩

/-- C6: construction with a traffic secret of the wrong length fails with the
configuration error for every expander and AEAD constructor (so before any
derivation, with no side effects); and if the length is right but derivation
fails, construction aborts with that derivation error for every AEAD
constructor (so before any AEAD crypter is built). -/
theorem c6_construction_failures :
    (∀ cs (trafficSecret : Bytes) (expander : Expander) aeadCtor,
      trafficSecret.length ≠ cs.trafficSecretSize →
      NewHalfConn cs trafficSecret expander aeadCtor = .error .configurationError) ∧
    (∀ cs (trafficSecret : Bytes) (expander : Expander) aeadCtor e,
      trafficSecret.length = cs.trafficSecretSize →
      (updateWithNewTrafficSecret (initialHalfConn cs expander trafficSecret)
          trafficSecret).2 = .error e →
      NewHalfConn cs trafficSecret expander aeadCtor = .error e) := by
  constructor
  · intro cs trafficSecret expander aeadCtor hlen
    unfold NewHalfConn
    rw [if_pos (by omega)]
  · intro cs trafficSecret expander aeadCtor e hlen hD
    unfold NewHalfConn
    rw [if_neg (by omega)]
    rcases hU : updateWithNewTrafficSecret (initialHalfConn cs expander trafficSecret)
        trafficSecret with ⟨hc0, r⟩
    rw [hU] at hD
    simp only at hD
    subst hD
    rfl

/-- Witness for C6: a 0-byte secret is rejected on AES-128-GCM with the
configuration error, and a failing expander aborts construction with its
derivation error. -/
theorem c6_construction_failures_witness :
    NewHalfConn .aes128gcmSHA256 [] zeroExpander (defaultAeadCtor .aes128gcmSHA256) =
      .error .configurationError ∧
    NewHalfConn .aes128gcmSHA256 (List.replicate 32 0) failExpander
      (defaultAeadCtor .aes128gcmSHA256) = .error .derivationError :=
  ⟨c6_construction_failures.1 .aes128gcmSHA256 [] zeroExpander
      (defaultAeadCtor .aes128gcmSHA256) (by decide),
    c6_construction_failures.2 .aes128gcmSHA256 (List.replicate 32 0) failExpander
      (defaultAeadCtor .aes128gcmSHA256) .derivationError (by decide) rfl⟩

/-- C7: for a well-formed slice, SliceForAppend returns a head of length
`len(in) + n` whose first `len(in)` bytes are `in`, and a tail of length
exactly `n` that views the last `n` bytes of head; when the capacity of `in`
already covers `len(in) + n`, head keeps the same backing array (no
allocation). -/
theorem c7_slice_for_append (inS : GoSlice) (n : Nat) (hwf : inS.len ≤ inS.buf.length) :
    (SliceForAppend inS n).1.len = inS.len + n ∧
    (SliceForAppend inS n).1.data.length = inS.len + n ∧
    (SliceForAppend inS n).1.data.take inS.len = inS.data ∧
    (SliceForAppend inS n).2.len = n ∧
    (SliceForAppend inS n).2.data.length = n ∧
    (SliceForAppend inS n).2.data = (SliceForAppend inS n).1.data.drop inS.len ∧
    (inS.cap ≥ inS.len + n → (SliceForAppend inS n).1.buf = inS.buf) := by
  unfold SliceForAppend GoSlice.data GoSlice.cap
  dsimp only
  split
  · rename_i hcap
    dsimp only
    refine ⟨rfl, ?_, ?_, rfl, ?_, ?_, fun _ => rfl⟩
    · simp only [List.length_take]; omega
    · rw [List.take_take]; congr 1; omega
    · simp only [List.length_take, List.length_drop]; omega
    · rw [List.drop_take]; congr 1; omega
  · rename_i hcap
    dsimp only
    have hdl : (inS.buf.take inS.len).length = inS.len := by
      simp only [List.length_take]; omega
    refine ⟨rfl, ?_, ?_, rfl, ?_, ?_, fun hh => absurd hh hcap⟩
    · simp only [List.length_take, List.length_append, List.length_replicate]; omega
    · rw [List.take_take, Nat.min_eq_left (Nat.le_add_right _ _),
        List.take_append_of_le_length (le_of_eq hdl.symm), List.take_take]
      congr 1
      omega
    · simp only [List.length_take, List.length_drop, List.length_append,
        List.length_replicate]
      omega
    · rw [List.drop_take]
      congr 1
      omega

/-- Witness for C7 at the slice [1,2,3] backed by a 5-byte array, requesting
4 more bytes. -/
theorem c7_slice_for_append_witness :
    (SliceForAppend { buf := [1, 2, 3, 9, 9], len := 3 } 4).1.len = 3 + 4 ∧
    (SliceForAppend { buf := [1, 2, 3, 9, 9], len := 3 } 4).1.data.length = 3 + 4 ∧
    (SliceForAppend { buf := [1, 2, 3, 9, 9], len := 3 } 4).1.data.take 3 =
      GoSlice.data { buf := [1, 2, 3, 9, 9], len := 3 } ∧
    (SliceForAppend { buf := [1, 2, 3, 9, 9], len := 3 } 4).2.len = 4 ∧
    (SliceForAppend { buf := [1, 2, 3, 9, 9], len := 3 } 4).2.data.length = 4 ∧
    (SliceForAppend { buf := [1, 2, 3, 9, 9], len := 3 } 4).2.data =
      (SliceForAppend { buf := [1, 2, 3, 9, 9], len := 3 } 4).1.data.drop 3 ∧
    (GoSlice.cap { buf := [1, 2, 3, 9, 9], len := 3 } ≥ 3 + 4 →
      (SliceForAppend { buf := [1, 2, 3, 9, 9], len := 3 } 4).1.buf = [1, 2, 3, 9, 9]) :=
  c7_slice_for_append { buf := [1, 2, 3, 9, 9], len := 3 } 4 (by decide)

/-- C8: key/nonce derivation is deterministic; two half connections built
from the identical ciphersuite, secret, expander and AEAD constructor hold
identical derived key bytes and identical static nonce bytes. -/
theorem c8_derivation_deterministic (cs : Ciphersuite) (secret : Bytes)
    (expander : Expander) (aeadCtor : Bytes → Except CrypterErr Bytes)
    (hc1 hc2 : S2AHalfConnection)
    (h1 : NewHalfConn cs secret expander aeadCtor = .ok hc1)
    (h2 : NewHalfConn cs secret expander aeadCtor = .ok hc2) :
    hc1.key = hc2.key ∧ hc1.nonce = hc2.nonce := by
  rw [h1, Except.ok.injEq] at h2
  subst h2
  exact ⟨rfl, rfl⟩

/-- Witness for C8: the construction from the all-zero 32-byte secret on
AES-128-GCM with the all-zero expander, used twice. -/
theorem c8_derivation_deterministic_witness :
    sampleConstructedHC.key = sampleConstructedHC.key ∧
    sampleConstructedHC.nonce = sampleConstructedHC.nonce :=
  c8_derivation_deterministic .aes128gcmSHA256 (List.replicate 32 0) zeroExpander
    (defaultAeadCtor .aes128gcmSHA256) sampleConstructedHC sampleConstructedHC rfl rfl

end S2A
